import Mathlib

/-!
Verification of the `maidsafe_utilities` logging module (`src/log.rs`).

The development shallowly embeds:
* the directive parser `parse_loggers` (RUST_LOG-style strings), including the
  external `LogLevelFilter` FromStr semantics of the `log` crate it calls into;
* the framed-record reassembler from the `server_logging` test, together with
  the framing scheme `UTF8(text) ++ MSG_TERMINATOR` of the network sink;
* the one-time-initialisation guard (`std::sync::Once`) and the four
  initialiser variants `init`, `init_to_file`, `init_to_file_async`,
  `init_to_server_async`, with their environmental effects (config file
  presence, appender construction, env variable, config build, logger
  installation) abstracted as explicit oracle inputs.

Strings are modelled as `List Char` (Rust `str` iteration), byte streams as
`List Nat`.
-/

namespace Maidsafe

/-- The severity filter enumeration of the external `log` crate
(`log::LogLevelFilter`, log 0.3.x): `OFF, ERROR, WARN, INFO, DEBUG, TRACE`. -/
inductive LogLevelFilter where
  | Off
  | Error
  | Warn
  | Info
  | Debug
  | Trace
deriving DecidableEq, Repr

/-- `static DEFAULT_LOG_LEVEL_FILTER: LogLevelFilter = LogLevelFilter::Warn;`
(src/log.rs line 95). -/
def DEFAULT_LOG_LEVEL_FILTER : LogLevelFilter := .Warn

/-- `FromStr for LogLevelFilter` of the `log` crate: ASCII-case-insensitive
match of the token against the level names.  `Char.toLower` is ASCII-only in
Lean, matching Rust's `eq_ignore_ascii_case`. -/
def levelFromStr (s : List Char) : Option LogLevelFilter :=
  let t := s.map Char.toLower
  if t = "off".data then some .Off
  else if t = "error".data then some .Error
  else if t = "warn".data then some .Warn
  else if t = "info".data then some .Info
  else if t = "debug".data then some .Debug
  else if t = "trace".data then some .Trace
  else none

/-- Rust `str::split(c)`: splits on every occurrence of `c`; always yields at
least one (possibly empty) piece; adjacent separators yield empty pieces. -/
def splitOnChar (c : Char) : List Char → List (List Char)
  | [] => [[]]
  | x :: xs =>
    if x = c then [] :: splitOnChar c xs
    else
      match splitOnChar c xs with
      | [] => [[x]]
      | p :: ps => (x :: p) :: ps

/-- Rust `str::trim`: drop whitespace from both ends. -/
def trimChars (s : List Char) : List Char :=
  ((s.dropWhile Char.isWhitespace).reverse.dropWhile Char.isWhitespace).reverse

/-- The token stream of `parse_loggers` (src/log.rs lines 396-398):
`input.split(',').map(str::trim).filter(|d| !d.is_empty())`. -/
def tokens (input : String) : List (List Char) :=
  (((splitOnChar ',' input.data).map trimChars).filter (fun d => !d.isEmpty))

/-- `struct ParseLoggerError;` (src/log.rs line 365): a single opaque error
value. -/
structure ParseLoggerError where
deriving DecidableEq, Repr

/-- `impl Display for ParseLoggerError` (src/log.rs lines 367-371). -/
def ParseLoggerError.display (_ : ParseLoggerError) : String := "ParseLoggerError"

/-- The loop state of `parse_loggers` (src/log.rs lines 392-394): the emitted
override list `loggers`, the pending FIFO queue `grouped_modules` (queue front
is the list head; `push_back` appends, `pop_front` takes the head), and the
current `default_level`. -/
structure PState where
  loggers : List (List Char × LogLevelFilter)
  grouped : List (List Char)
  default_level : LogLevelFilter
deriving DecidableEq, Repr

/-- The state `parse_loggers` starts from (src/log.rs lines 392-394). -/
def initialPState : PState :=
  { loggers := [], grouped := [], default_level := DEFAULT_LOG_LEVEL_FILTER }

/-- One iteration of the `for sub_input in ...` loop of `parse_loggers`
(src/log.rs lines 399-416).  `sub_input.trim().split('=')` is consumed via two
`next()` calls, so the match is on the first two pieces of the split; pieces
after the second `=` are never looked at.  The `(Some, Some)` arm parses the
second piece as a level (error on failure), flushes the queued modules in FIFO
order at that level, then emits the named override.  The `(Some, None)` arm
either sets the default level or queues a bare module name.  The `_` arm
(`(None, _)`) returns the parse error; `split` always yields a first piece, so
it corresponds to the impossible empty split result. -/
def stepToken (st : PState) (tok : List Char) : Except ParseLoggerError PState :=
  match splitOnChar '=' (trimChars tok) with
  | [] => .error {}
  | [module] =>
    match levelFromStr module with
    | some level_filter => .ok { st with default_level := level_filter }
    | none => .ok { st with grouped := st.grouped ++ [module] }
  | module_name :: level :: _ =>
    match levelFromStr level with
    | none => .error {}
    | some level_filter =>
      .ok { loggers := st.loggers ++ st.grouped.map (fun m => (m, level_filter))
                        ++ [(module_name, level_filter)]
            grouped := []
            default_level := st.default_level }

/-- The token loop of `parse_loggers`: left-to-right, short-circuiting on the
first error (Rust `try!`). -/
def runTokens (st : PState) : List (List Char) → Except ParseLoggerError PState
  | [] => .ok st
  | t :: ts =>
    match stepToken st t with
    | .error e => .error e
    | .ok st2 => runTokens st2 ts

/-- `fn parse_loggers(input: &str)` (src/log.rs lines 389-425): run the token
loop from the initial state, then flush any still-queued bare module names at
the final `default_level` (lines 419-421) and return the pair. -/
def parse_loggers (input : String) :
    Except ParseLoggerError (LogLevelFilter × List (List Char × LogLevelFilter)) :=
  match runTokens initialPState (tokens input) with
  | .error e => .error e
  | .ok st =>
    .ok (st.default_level, st.loggers ++ st.grouped.map (fun m => (m, st.default_level)))

/-- `fn parse_loggers_from_env()` (src/log.rs lines 379-387): parse `RUST_LOG`
when the variable is set, else return the fallback with no overrides. -/
def parse_loggers_from_env (rustLog : Option String) :
    Except ParseLoggerError (LogLevelFilter × List (List Char × LogLevelFilter)) :=
  match rustLog with
  | some var => parse_loggers var
  | none => .ok (DEFAULT_LOG_LEVEL_FILTER, [])

/-- The token loop distributes over list append, short-circuiting on errors. -/
theorem runTokens_append (st : PState) (l1 l2 : List (List Char)) :
    runTokens st (l1 ++ l2) =
      match runTokens st l1 with
      | .error e => .error e
      | .ok st2 => runTokens st2 l2 := by
  induction l1 generalizing st with
  | nil => rfl
  | cons t ts ih =>
    simp only [List.cons_append, runTokens]
    cases stepToken st t with
    | error e => rfl
    | ok st2 => exact ih st2

/-- A single parser step only appends to the emitted override list. -/
theorem stepToken_loggers_mono {st : PState} {tok : List Char} {st2 : PState}
    (h : stepToken st tok = .ok st2) :
    ∃ tail, st2.loggers = st.loggers ++ tail := by
  unfold stepToken at h
  split at h
  · cases h
  · split at h
    · cases h; exact ⟨[], by simp⟩
    · cases h; exact ⟨[], by simp⟩
  · split at h
    · cases h
    · cases h
      exact ⟨_, (List.append_assoc _ _ _)⟩

/-- The token loop only appends to the emitted override list. -/
theorem runTokens_loggers_mono {ts : List (List Char)} :
    ∀ {st st2 : PState}, runTokens st ts = .ok st2 →
      ∃ tail, st2.loggers = st.loggers ++ tail := by
  induction ts with
  | nil =>
    intro st st2 h
    cases h
    exact ⟨[], by simp⟩
  | cons t ts ih =>
    intro st st2 h
    cases hstep : stepToken st t with
    | error e =>
      simp only [runTokens, hstep] at h
      cases h
    | ok st1 =>
      simp only [runTokens, hstep] at h
      obtain ⟨t1, h1⟩ := stepToken_loggers_mono hstep
      obtain ⟨t2, h2⟩ := ih h
      exact ⟨t1 ++ t2, by rw [h2, h1, List.append_assoc]⟩

/-- A token whose level text does not parse makes the whole token loop fail. -/
theorem runTokens_error_of_bad_level {tok name ltext : List Char} {rest : List (List Char)}
    (hsplit : splitOnChar '=' (trimChars tok) = name :: ltext :: rest)
    (hlvl : levelFromStr ltext = none) :
    ∀ (ts : List (List Char)) (st : PState), tok ∈ ts → runTokens st ts = .error {} := by
  intro ts
  induction ts with
  | nil =>
    intro st h
    cases h
  | cons t ts ih =>
    intro st hmem
    rcases List.mem_cons.mp hmem with rfl | hmem2
    · have hbad : stepToken st tok = .error {} := by
        simp only [stepToken, hsplit, hlvl]
      simp [runTokens, hbad]
    · cases hstep : stepToken st t with
      | error e => simp [runTokens, hstep]
      | ok st2 =>
        simp only [runTokens, hstep]
        exact ih st2 hmem2

/-- A token whose level text does not parse makes `parse_loggers` fail. -/
theorem parse_loggers_error_of_bad_level {input : String} {tok name ltext : List Char}
    {rest : List (List Char)}
    (hmem : tok ∈ tokens input)
    (hsplit : splitOnChar '=' (trimChars tok) = name :: ltext :: rest)
    (hlvl : levelFromStr ltext = none) :
    parse_loggers input = .error {} := by
  unfold parse_loggers
  rw [runTokens_error_of_bad_level hsplit hlvl (tokens input) initialPState hmem]

/-- C1: when a token containing `=` is processed, every bare module name
accumulated so far in the pending FIFO queue is emitted with the level just
parsed from that token, in queue order, before the token's own `(name, level)`
override; consequently, in any successful parse of the directive string, those
entries appear in the final override sequence, in that order, before that
token's entry. -/
theorem c1_flush_queue_on_leveled_token
    (input : String) (ts1 ts2 : List (List Char)) (tok name ltext : List Char)
    (rest : List (List Char)) (lf : LogLevelFilter) (st : PState)
    (dl : LogLevelFilter) (ovs : List (List Char × LogLevelFilter))
    (htok : tokens input = ts1 ++ tok :: ts2)
    (hsplit : splitOnChar '=' (trimChars tok) = name :: ltext :: rest)
    (hlvl : levelFromStr ltext = some lf)
    (hrun : runTokens initialPState ts1 = .ok st)
    (hparse : parse_loggers input = .ok (dl, ovs)) :
    stepToken st tok =
      .ok { loggers := st.loggers ++ st.grouped.map (fun m => (m, lf)) ++ [(name, lf)],
            grouped := [], default_level := st.default_level }
    ∧ ∃ tail, ovs = st.loggers ++ st.grouped.map (fun m => (m, lf)) ++ [(name, lf)] ++ tail := by
  have hstep : stepToken st tok =
      .ok { loggers := st.loggers ++ st.grouped.map (fun m => (m, lf)) ++ [(name, lf)],
            grouped := [], default_level := st.default_level } := by
    simp only [stepToken, hsplit, hlvl]
  refine ⟨hstep, ?_⟩
  have hrun3 : runTokens initialPState (tokens input) = runTokens
      { loggers := st.loggers ++ st.grouped.map (fun m => (m, lf)) ++ [(name, lf)],
        grouped := [], default_level := st.default_level } ts2 := by
    rw [htok, runTokens_append, hrun]
    simp only [runTokens, hstep]
  unfold parse_loggers at hparse
  cases hfin : runTokens initialPState (tokens input) with
  | error e =>
    rw [hfin] at hparse
    cases hparse
  | ok stF =>
    rw [hfin] at hparse
    rw [hfin] at hrun3
    obtain ⟨tail, htail⟩ := runTokens_loggers_mono hrun3.symm
    have hp2 : Except.ok (ε := ParseLoggerError)
        (stF.default_level, stF.loggers ++ stF.grouped.map (fun m => (m, stF.default_level)))
        = .ok (dl, ovs) := hparse
    injection hp2 with hpair
    injection hpair with hdl hovs
    refine ⟨tail ++ stF.grouped.map (fun m => (m, stF.default_level)), ?_⟩
    rw [← hovs, htail]
    simp [List.append_assoc]

/-- C1 witness: for `"a0,b=info"`, processing the token `b=info` flushes the
queued bare name `a0` at `Info` before emitting `(b, Info)`, and the final
override sequence is `[(a0, Info), (b, Info)]`. -/
theorem c1_flush_queue_on_leveled_token_witness :
    stepToken { loggers := [], grouped := ["a0".data], default_level := .Warn } "b=info".data =
      .ok { loggers := [("a0".data, LogLevelFilter.Info), ("b".data, LogLevelFilter.Info)],
            grouped := [], default_level := .Warn }
    ∧ ∃ tail, [("a0".data, LogLevelFilter.Info), ("b".data, LogLevelFilter.Info)] =
        [] ++ ["a0".data].map (fun m => (m, LogLevelFilter.Info))
          ++ [("b".data, LogLevelFilter.Info)] ++ tail :=
  c1_flush_queue_on_leveled_token "a0,b=info" ["a0".data] [] "b=info".data "b".data
    "info".data [] .Info { loggers := [], grouped := ["a0".data], default_level := .Warn }
    .Warn [("a0".data, .Info), ("b".data, .Info)] rfl rfl rfl rfl rfl

/-- C2: a bare token that parses as a level sets the default level (last such
token wins: each one overwrites the previous default); a successful parse
flushes every still-queued bare module name at the final default level; in
particular when the last token of the directive is a level token, every name
still queued from earlier in the input is emitted at that level. -/
theorem c2_default_level_last_wins_final_flush :
    (∀ (st : PState) (tok m : List Char) (lf : LogLevelFilter),
       splitOnChar '=' (trimChars tok) = [m] → levelFromStr m = some lf →
       stepToken st tok = .ok { st with default_level := lf })
    ∧ (∀ (input : String) (stF : PState),
       runTokens initialPState (tokens input) = .ok stF →
       parse_loggers input =
         .ok (stF.default_level, stF.loggers ++ stF.grouped.map (fun m => (m, stF.default_level))))
    ∧ (∀ (input : String) (ts1 : List (List Char)) (tok m : List Char)
         (lf : LogLevelFilter) (st : PState),
       tokens input = ts1 ++ [tok] →
       splitOnChar '=' (trimChars tok) = [m] → levelFromStr m = some lf →
       runTokens initialPState ts1 = .ok st →
       parse_loggers input = .ok (lf, st.loggers ++ st.grouped.map (fun n => (n, lf)))) := by
  have hset : ∀ (st : PState) (tok m : List Char) (lf : LogLevelFilter),
      splitOnChar '=' (trimChars tok) = [m] → levelFromStr m = some lf →
      stepToken st tok = .ok { st with default_level := lf } := by
    intro st tok m lf hsplit hlvl
    simp only [stepToken, hsplit, hlvl]
  have hfinal : ∀ (input : String) (stF : PState),
      runTokens initialPState (tokens input) = .ok stF →
      parse_loggers input =
        .ok (stF.default_level, stF.loggers ++ stF.grouped.map (fun m => (m, stF.default_level))) := by
    intro input stF h
    unfold parse_loggers
    rw [h]
  refine ⟨hset, hfinal, ?_⟩
  intro input ts1 tok m lf st htok hsplit hlvl hrun
  have hrun2 : runTokens initialPState (tokens input) = .ok { st with default_level := lf } := by
    rw [htok, runTokens_append, hrun]
    simp only [runTokens, hset st tok m lf hsplit hlvl]
  exact hfinal input { st with default_level := lf } hrun2

/-- C2 witness: in `"a0,info"` the level token `info` appears after the bare
name `a0`; the default becomes `Info` and the queued `a0` is flushed at the
final default `Info`. -/
theorem c2_default_level_last_wins_final_flush_witness :
    parse_loggers "a0,info" =
      .ok (.Info, [] ++ ["a0".data].map (fun n => (n, LogLevelFilter.Info))) :=
  c2_default_level_last_wins_final_flush.2.2 "a0,info" ["a0".data] "info".data "info".data
    .Info { loggers := [], grouped := ["a0".data], default_level := .Warn } rfl rfl rfl rfl

/-- C3: `parse("info,foo::bar,baz=debug,a0,a1,a2,a3")` succeeds with default
level `Info` and exactly the override sequence
`[(foo::bar, Debug), (baz, Debug), (a0, Info), (a1, Info), (a2, Info), (a3, Info)]`. -/
theorem c3_parse_concrete :
    parse_loggers "info,foo::bar,baz=debug,a0,a1,a2,a3" =
      .ok (.Info, [("foo::bar".data, .Debug), ("baz".data, .Debug), ("a0".data, .Info),
                   ("a1".data, .Info), ("a2".data, .Info), ("a3".data, .Info)]) := rfl

/-- C5 counterexample: the claim says `"foo=info=extra"` must be a parse
failure (level text = everything after the first `=`), but the code parses it
successfully: `split('=')` is consumed by two `next()` calls, so only the
segment between the first and second `=` is the level text. -/
theorem c5_counterexample :
    parse_loggers "foo=info=extra" = .ok (.Warn, [("foo".data, .Info)]) := rfl

/-- C5 amended: for a token containing `=`, the name is the segment before the
first `=` and the level text is the segment between the first and the second
`=`; any further segments are ignored.  The parser returns `ParseLoggerError`
exactly when that segment does not parse as a level, and such a token anywhere
in the input fails the whole parse. -/
theorem c5_amended_second_segment_is_level_text
    (st : PState) (input : String) (tok name ltext : List Char) (rest : List (List Char))
    (hsplit : splitOnChar '=' (trimChars tok) = name :: ltext :: rest) :
    stepToken st tok =
      (match levelFromStr ltext with
       | none => .error {}
       | some lf =>
         .ok { loggers := st.loggers ++ st.grouped.map (fun m => (m, lf)) ++ [(name, lf)],
               grouped := [], default_level := st.default_level })
    ∧ (levelFromStr ltext = none → tok ∈ tokens input → parse_loggers input = .error {}) := by
  constructor
  · simp only [stepToken, hsplit]
  · intro hlvl hmem
    exact parse_loggers_error_of_bad_level hmem hsplit hlvl

/-- C5 amendment witness, at the token `x=bogus` of the input `"x=bogus"`. -/
theorem c5_amended_second_segment_is_level_text_witness :
    stepToken initialPState "x=bogus".data =
      (match levelFromStr "bogus".data with
       | none => .error {}
       | some lf =>
         .ok { loggers := initialPState.loggers
                 ++ initialPState.grouped.map (fun m => (m, lf)) ++ [("x".data, lf)],
               grouped := [], default_level := initialPState.default_level })
    ∧ (levelFromStr "bogus".data = none → "x=bogus".data ∈ tokens "x=bogus" →
        parse_loggers "x=bogus" = .error {}) :=
  c5_amended_second_segment_is_level_text initialPState "x=bogus" "x=bogus".data
    "x".data "bogus".data [] rfl

/-- C6 counterexample: the claim says a token with an empty name before `=`
(such as `"=info"`) is a hard parse failure, but the code accepts it and
emits an override whose module name is the empty string. -/
theorem c6_counterexample :
    parse_loggers "=info" = .ok (.Warn, [([], .Info)]) := rfl

/-- C6 amended: a token with an empty name before `=` is processed like any
other `name=level` token: the pending queue is flushed at the parsed level and
an override with the empty module name is emitted (the parser's error arm for
malformed shapes is unreachable for such tokens). -/
theorem c6_amended_empty_name_accepted
    (st : PState) (tok ltext : List Char) (rest : List (List Char)) (lf : LogLevelFilter)
    (hsplit : splitOnChar '=' (trimChars tok) = [] :: ltext :: rest)
    (hlvl : levelFromStr ltext = some lf) :
    stepToken st tok =
      .ok { loggers := st.loggers ++ st.grouped.map (fun m => (m, lf)) ++ [([], lf)],
            grouped := [], default_level := st.default_level } := by
  simp only [stepToken, hsplit, hlvl]

/-- C6 amendment witness, at the token `=info`. -/
theorem c6_amended_empty_name_accepted_witness :
    stepToken initialPState "=info".data =
      .ok { loggers := [(([] : List Char), LogLevelFilter.Info)], grouped := [],
            default_level := .Warn } :=
  c6_amended_empty_name_accepted initialPState "=info".data "info".data [] .Info rfl rfl

/-- C7: parsing is all-or-nothing — a token whose level text does not parse
anywhere in the input makes `parse_loggers` return the single opaque
`ParseLoggerError` (the `Except` result carries no partial table) — and the
empty input yields the statically configured fallback `Warn` with an empty
override sequence. -/
theorem c7_all_or_nothing_and_empty_input :
    (∀ (input : String) (tok name ltext : List Char) (rest : List (List Char)),
       tok ∈ tokens input →
       splitOnChar '=' (trimChars tok) = name :: ltext :: rest →
       levelFromStr ltext = none →
       parse_loggers input = .error {})
    ∧ parse_loggers "" = .ok (DEFAULT_LOG_LEVEL_FILTER, []) :=
  ⟨fun _ _ _ _ _ hmem hsplit hlvl => parse_loggers_error_of_bad_level hmem hsplit hlvl, rfl⟩

/-- C7 witness: `"a=bogus"` fails as a whole, and the empty input parses to
`(Warn, [])`. -/
theorem c7_all_or_nothing_and_empty_input_witness :
    parse_loggers "a=bogus" = .error {}
    ∧ parse_loggers "" = .ok (DEFAULT_LOG_LEVEL_FILTER, []) :=
  ⟨c7_all_or_nothing_and_empty_input.1 "a=bogus" "a=bogus".data "a".data "bogus".data []
    (by decide) rfl rfl,
   c7_all_or_nothing_and_empty_input.2⟩

/-- Modelled from the spec: `MSG_TERMINATOR`, the fixed terminator byte
sequence of the network sink's framing, is declared in `async_log.rs`, which is
not part of the sources here (the test only imports it).  The spec describes it
as a fixed byte sequence that cannot appear inside a rendered (UTF-8) record;
it is modelled as the three-byte sequence `[254, 253, 255]`, bytes which are
never produced by UTF-8 encoding. -/
def MSG_TERMINATOR : List Nat := [254, 253, 255]

/-- The framing of the network sink (spec section 6 wire format, src/log.rs
`AsyncAppender`): a record's rendered bytes followed by the terminator. -/
def frame (term msg : List Nat) : List Nat := msg ++ term

/-- The terminator scan of the `server_logging` test (src/log.rs lines
527-542): while a full window fits (`read_buf.len() - search_frm_index >=
MSG_TERMINATOR.len()`), compare the window at the cursor with the terminator;
on mismatch advance the cursor by one; on match emit the buffer prefix before
the cursor as a record, drop the consumed prefix including the terminator, and
reset the cursor to 0.  The `0 < term.length` guard makes the loop total; the
real terminator is nonempty. -/
def scanBuf (term buf : List Nat) (idx : Nat) : List (List Nat) × (List Nat × Nat) :=
  if _h : 0 < term.length ∧ idx + term.length ≤ buf.length then
    if (buf.drop idx).take term.length = term then
      ((buf.take idx) :: (scanBuf term (buf.drop (idx + term.length)) 0).1,
        (scanBuf term (buf.drop (idx + term.length)) 0).2)
    else scanBuf term buf (idx + 1)
  else ([], (buf, idx))
termination_by buf.length - idx
decreasing_by
  all_goals try simp only [List.length_drop]
  all_goals omega

/-- The read loop of the `server_logging` test (src/log.rs lines 519-543):
each received chunk is appended to the buffer (the cursor persisting across
reads), then the terminator scan runs; emitted records accumulate in order. -/
def runReassembler (term : List Nat) :
    (List Nat × Nat) → List (List Nat) → List (List Nat) × (List Nat × Nat)
  | st, [] => ([], st)
  | st, c :: cs =>
    ((scanBuf term (st.1 ++ c) st.2).1
        ++ (runReassembler term (scanBuf term (st.1 ++ c) st.2).2 cs).1,
      (runReassembler term (scanBuf term (st.1 ++ c) st.2).2 cs).2)

/-- The record bytes do not contain the terminator sequence at any position. -/
abbrev NoOccurrence (term msg : List Nat) : Prop :=
  ∀ q < msg.length, (msg.drop q).take term.length ≠ term

/-- The terminator has no proper border: no nonempty proper suffix of it is
also a prefix of it.  This rules out an occurrence of the terminator that
straddles the boundary between record bytes and terminator in a frame. -/
abbrev Borderfree (term : List Nat) : Prop :=
  ∀ k < term.length, 0 < k → term.drop k ≠ term.take (term.length - k)

theorem scanBuf_eq (term buf : List Nat) (idx : Nat) :
    scanBuf term buf idx =
      if h : 0 < term.length ∧ idx + term.length ≤ buf.length then
        if (buf.drop idx).take term.length = term then
          ((buf.take idx) :: (scanBuf term (buf.drop (idx + term.length)) 0).1,
            (scanBuf term (buf.drop (idx + term.length)) 0).2)
        else scanBuf term buf (idx + 1)
      else ([], (buf, idx)) := by
  conv_lhs => rw [scanBuf.eq_def]

/-- If no full window of the buffer matches the terminator, the scan emits
nothing, keeps the buffer, and leaves the cursor either unmoved or within one
window of the buffer end. -/
theorem scanBuf_no_match (term buf : List Nat)
    (hno : ∀ q, q + term.length ≤ buf.length → (buf.drop q).take term.length ≠ term) :
    ∀ n idx, buf.length - idx = n →
      ∃ idx2, scanBuf term buf idx = ([], (buf, idx2)) ∧ idx ≤ idx2 ∧
        (idx2 = idx ∨ idx2 + term.length ≤ buf.length + 1) := by
  intro n
  induction n with
  | zero =>
    intro idx hn
    refine ⟨idx, ?_, le_refl idx, Or.inl rfl⟩
    rw [scanBuf_eq, dif_neg]
    intro hc
    omega
  | succ n ih =>
    intro idx hn
    by_cases hc : 0 < term.length ∧ idx + term.length ≤ buf.length
    · have hw := hno idx hc.2
      rw [scanBuf_eq, dif_pos hc, if_neg hw]
      obtain ⟨idx2, heq, hle, hd⟩ := ih (idx + 1) (by omega)
      refine ⟨idx2, heq, by omega, ?_⟩
      rcases hd with rfl | hd
      · right; omega
      · right; exact hd
    · rw [scanBuf_eq, dif_neg hc]
      exact ⟨idx, rfl, le_refl idx, Or.inl rfl⟩

/-- Scanning a complete frame whose only terminator occurrence is at the end
(from any cursor position not past the record) emits exactly the record and
leaves an empty buffer with cursor 0. -/
theorem scanBuf_frame (term msg : List Nat) (hT : 0 < term.length)
    (hno : ∀ q, q < msg.length → ((msg ++ term).drop q).take term.length ≠ term) :
    ∀ n idx, msg.length - idx = n → idx ≤ msg.length →
      scanBuf term (msg ++ term) idx = ([msg], ([], 0)) := by
  intro n
  induction n with
  | zero =>
    intro idx hn hle
    have hidx : idx = msg.length := by omega
    subst hidx
    have hc : 0 < term.length ∧ msg.length + term.length ≤ (msg ++ term).length := by
      constructor
      · exact hT
      · simp [List.length_append]
    have hm : ((msg ++ term).drop msg.length).take term.length = term := by
      rw [List.drop_left, List.take_length]
    have hdrop : (msg ++ term).drop (msg.length + term.length) = [] := by
      apply List.drop_eq_nil_of_le
      simp [List.length_append]
    have hnil : scanBuf term [] 0 = ([], ([], 0)) := by
      rw [scanBuf_eq, dif_neg]
      intro hcc
      have hcc2 := hcc.2
      simp only [List.length_nil] at hcc2
      omega
    rw [scanBuf_eq, dif_pos hc, if_pos hm, hdrop, List.take_left, hnil]
  | succ n ih =>
    intro idx hn hle
    have hidx : idx < msg.length := by omega
    have hc : 0 < term.length ∧ idx + term.length ≤ (msg ++ term).length := by
      constructor
      · exact hT
      · rw [List.length_append]; omega
    rw [scanBuf_eq, dif_pos hc, if_neg (hno idx hidx)]
    exact ih (idx + 1) (by omega) (by omega)

/-- In a frame built from a record that does not contain a border-free
terminator, the terminator does not occur at any position before the record's
end. -/
theorem frame_no_early_match (term msg : List Nat) (hbf : Borderfree term)
    (hno : NoOccurrence term msg) :
    ∀ q, q < msg.length → ((msg ++ term).drop q).take term.length ≠ term := by
  intro q hq hcontra
  have hdrop : (msg ++ term).drop q = msg.drop q ++ term := by
    rw [List.drop_append_eq_append_drop]
    have h0 : q - msg.length = 0 := by omega
    rw [h0, List.drop_zero]
  rw [hdrop] at hcontra
  by_cases hcase : q + term.length ≤ msg.length
  · have hlen : term.length ≤ (msg.drop q).length := by
      rw [List.length_drop]; omega
    rw [List.take_append_of_le_length hlen] at hcontra
    exact hno q hq hcontra
  · have hk1 : 0 < msg.length - q := by omega
    have hk2 : msg.length - q < term.length := by omega
    have hlen : (msg.drop q).length = msg.length - q := List.length_drop _ _
    have ha : (msg.drop q).take term.length = msg.drop q :=
      List.take_of_length_le (by omega)
    rw [List.take_append_eq_append_take, ha, hlen] at hcontra
    have hb := congrArg (List.drop (msg.length - q)) hcontra
    rw [List.drop_append_eq_append_drop] at hb
    rw [List.drop_eq_nil_of_le (le_of_eq hlen), hlen, Nat.sub_self, List.drop_zero,
      List.nil_append] at hb
    exact hbf (msg.length - q) hk2 hk1 hb.symm

/-- Feeding the bytes of one frame to the reassembler, split across any
sequence of nonempty reads and starting from any buffer/cursor state that is a
partial prefix of the frame with a consistent cursor, emits exactly the framed
record and ends with an empty buffer and cursor 0. -/
theorem runReassembler_frame (term msg : List Nat) (hT : 0 < term.length)
    (hbf : Borderfree term) (hno : NoOccurrence term msg) :
    ∀ (chunks : List (List Nat)) (buf : List Nat) (idx : Nat),
      (∀ c ∈ chunks, c ≠ []) →
      buf ++ chunks.join = msg ++ term →
      chunks ≠ [] →
      (idx = 0 ∨ idx + term.length ≤ buf.length + 1) →
      runReassembler term (buf, idx) chunks = ([msg], ([], 0)) := by
  have hearly := frame_no_early_match term msg hbf hno
  intro chunks
  induction chunks with
  | nil =>
    intro buf idx _ _ hne _
    exact absurd rfl hne
  | cons c cs ih =>
    intro buf idx hcne hjoin _ hidx
    have hc1 : 1 ≤ c.length := List.length_pos.mpr (hcne c (List.mem_cons_self c cs))
    cases cs with
    | nil =>
      have hfull : buf ++ c = msg ++ term := by
        simpa using hjoin
      have hlen : buf.length + c.length = msg.length + term.length := by
        have := congrArg List.length hfull
        simpa [List.length_append] using this
      have hle : idx ≤ msg.length := by
        rcases hidx with rfl | hidx
        · exact Nat.zero_le _
        · omega
      have hscan : scanBuf term (buf ++ c) idx = ([msg], ([], 0)) := by
        rw [hfull]
        exact scanBuf_frame term msg hT hearly (msg.length - idx) idx rfl hle
      simp [runReassembler, hscan]
    | cons d ds =>
      have hjoin2 : (buf ++ c) ++ (d :: ds).join = msg ++ term := by
        rw [List.append_assoc]
        simpa using hjoin
      have hd1 : 1 ≤ d.length :=
        List.length_pos.mpr (hcne d (List.mem_cons_of_mem c (List.mem_cons_self d ds)))
      have hjlen : d.length ≤ (d :: ds).join.length := by
        simp [List.length_join]
      have hplen : (buf ++ c).length + (d :: ds).join.length = msg.length + term.length := by
        rw [← List.length_append, hjoin2, List.length_append]
      have hprefix : (buf ++ c).length < msg.length + term.length := by omega
      have hnomatch : ∀ q, q + term.length ≤ (buf ++ c).length →
          ((buf ++ c).drop q).take term.length ≠ term := by
        intro q hq
        have hq2 : q < msg.length := by omega
        have hwin : ((buf ++ c).drop q).take term.length =
            ((msg ++ term).drop q).take term.length := by
          conv_rhs => rw [← hjoin2]
          conv_rhs => rw [List.drop_append_eq_append_drop]
          rw [List.take_append_of_le_length (by rw [List.length_drop]; omega)]
        rw [hwin]
        exact hearly q hq2
      obtain ⟨idx2, heq, hle2, hdisj⟩ :=
        scanBuf_no_match term (buf ++ c) hnomatch ((buf ++ c).length - idx) idx rfl
      have hidx2 : idx2 = 0 ∨ idx2 + term.length ≤ (buf ++ c).length + 1 := by
        rcases hdisj with rfl | hdisj
        · rcases hidx with rfl | hidx
          · exact Or.inl rfl
          · right
            have : buf.length ≤ (buf ++ c).length := by
              rw [List.length_append]; omega
            omega
        · exact Or.inr hdisj
      have hrest := ih (buf ++ c) idx2
        (fun x hx => hcne x (List.mem_cons_of_mem c hx)) hjoin2 (by simp) hidx2
      have hstep : runReassembler term (buf, idx) (c :: d :: ds) =
          ((scanBuf term (buf ++ c) idx).1
              ++ (runReassembler term (scanBuf term (buf ++ c) idx).2 (d :: ds)).1,
            (runReassembler term (scanBuf term (buf ++ c) idx).2 (d :: ds)).2) := rfl
      rw [hstep, heq]
      simp [hrest]

/-- C4: for every record byte sequence that does not contain the terminator,
framing it (record bytes followed by the terminator) and feeding the frame to
the reassembler — split across any number of nonempty reads in any way —
emits exactly the original record and leaves an empty buffer.  A single read
may complete zero, one, or several records; here the frame holds one record,
emitted exactly when its terminator has arrived.  Record texts are modelled by
their UTF-8 bytes; recovering the bytes exactly recovers the text. -/
theorem c4_frame_reassemble_roundtrip (msg : List Nat) (chunks : List (List Nat))
    (hne : ∀ c ∈ chunks, c ≠ [])
    (hjoin : chunks.join = frame MSG_TERMINATOR msg)
    (hno : NoOccurrence MSG_TERMINATOR msg) :
    runReassembler MSG_TERMINATOR ([], 0) chunks = ([msg], ([], 0)) := by
  have hT : 0 < MSG_TERMINATOR.length := by decide
  have hbf : Borderfree MSG_TERMINATOR := by decide
  have hchunks : chunks ≠ [] := by
    intro hempty
    subst hempty
    have := congrArg List.length hjoin
    simp [frame, MSG_TERMINATOR, List.length_append] at this
  exact runReassembler_frame MSG_TERMINATOR msg hT hbf hno chunks [] 0 hne
    (by simpa [frame] using hjoin) hchunks (Or.inl rfl)

/-- C4 witness: the record `[1, 2, 3]` framed as `[1, 2, 3, 254, 253, 255]`
and delivered in three reads splitting both the record and the terminator is
reassembled exactly. -/
theorem c4_frame_reassemble_roundtrip_witness :
    runReassembler MSG_TERMINATOR ([], 0) [[1, 2], [3, 254], [253, 255]] =
      ([[1, 2, 3]], ([], 0)) :=
  c4_frame_reassemble_roundtrip [1, 2, 3] [[1, 2], [3, 254], [253, 255]]
    (by decide) (by decide) (by decide)

/-- The observable outcome of one initialiser call: a `Result::Ok`, a
`Result::Err` carrying the error string, or a panic (for `init`'s
`.expect(...)` on a malformed `RUST_LOG`, src/log.rs line 119). -/
inductive BodyResult where
  | ok
  | err (msg : String)
  | panicked (msg : String)
deriving DecidableEq, Repr

def isOk : BodyResult → Bool
  | .ok => true
  | _ => false

def isErr : BodyResult → Bool
  | .err _ => true
  | _ => false

def isPanic : BodyResult → Bool
  | .panicked _ => true
  | _ => false

/-- The state of `static INITIALISE_LOGGER: Once` (src/log.rs line 93):
never used, used up by a completed `call_once`, or poisoned by a closure that
panicked inside `call_once`. -/
inductive OnceState where
  | fresh
  | done
  | poisoned
deriving DecidableEq, Repr

/-- The pattern shared by all four initialisers (src/log.rs lines 100-139,
162-214, 218-278, 282-352): `result` starts as
`Err("Logger already initialised")` and `INITIALISE_LOGGER.call_once` runs the
closure only if the `Once` was never used; the closure overwrites `result` on
every non-panicking path.  A panic inside the closure propagates and poisons
the `Once` (std::sync::Once semantics). -/
def call_once (st : OnceState) (body : BodyResult) : BodyResult × OnceState :=
  match st with
  | .done => (.err "Logger already initialised", .done)
  | .poisoned => (.panicked "Once instance has previously been poisoned", .poisoned)
  | .fresh =>
    match body with
    | .panicked m => (.panicked m, .poisoned)
    | r => (r, .done)

/-- The environment `init` interacts with: whether `log.toml` exists, the
outcome of `log4rs::init_file`, the `RUST_LOG` variable, the outcome of
`Config::builder(...).build()`, and the outcome of `log4rs::init_config`. -/
structure InitEnv where
  configFileExists : Bool
  initFileOutcome : Except String Unit
  rustLog : Option String
  configBuildOutcome : Except String Unit
  initConfigOutcome : Except String Unit
deriving Repr

/-- The closure of `init` (src/log.rs lines 103-136): with a config file,
delegate to `log4rs::init_file`; otherwise parse `RUST_LOG` — PANICKING via
`.expect("failed to parse RUST_LOG env variable")` on a parse error (line
119) — then build and install the config, turning those errors into `Err`. -/
def initBody (e : InitEnv) : BodyResult :=
  if e.configFileExists then
    match e.initFileOutcome with
    | .ok _ => .ok
    | .error m => .err m
  else
    match parse_loggers_from_env e.rustLog with
    | .error _ => .panicked "failed to parse RUST_LOG env variable"
    | .ok _ =>
      match e.configBuildOutcome with
      | .error m => .err m
      | .ok _ =>
        match e.initConfigOutcome with
        | .ok _ => .ok
        | .error m => .err m

/-- `pub fn init(show_thread_name: bool)` (src/log.rs lines 100-139). -/
def init (e : InitEnv) (st : OnceState) : BodyResult × OnceState :=
  call_once st (initBody e)

/-- The environment `init_to_file` interacts with. -/
structure InitToFileEnv where
  fileAppenderOutcome : Except String Unit
  rustLog : Option String
  configBuildOutcome : Except String Unit
  initConfigOutcome : Except String Unit
deriving Repr

/-- The closure of `init_to_file` (src/log.rs lines 165-211): build the file
appender (errors become `Err`), then parse `RUST_LOG` (a parse error becomes
`Err(format!("{}", error))`, i.e. `Err("ParseLoggerError")`), then build and
install the config. -/
def init_to_fileBody (e : InitToFileEnv) : BodyResult :=
  match e.fileAppenderOutcome with
  | .error m => .err m
  | .ok _ =>
    match parse_loggers_from_env e.rustLog with
    | .error pe => .err pe.display
    | .ok _ =>
      match e.configBuildOutcome with
      | .error m => .err m
      | .ok _ =>
        match e.initConfigOutcome with
        | .ok _ => .ok
        | .error m => .err m

/-- `pub fn init_to_file(...)` (src/log.rs lines 162-214). -/
def init_to_file (e : InitToFileEnv) (st : OnceState) : BodyResult × OnceState :=
  call_once st (init_to_fileBody e)

/-- The environment `init_to_file_async` interacts with. -/
structure InitToFileAsyncEnv where
  rustLog : Option String
  fileAppenderOutcome : Except String Unit
  configBuildOutcome : Except String Unit
  initConfigOutcome : Except String Unit
deriving Repr

/-- The closure of `init_to_file_async` (src/log.rs lines 224-275): parse
`RUST_LOG` first (a parse error becomes `Err("ParseLoggerError")`), then the
async file appender, then build and install the config. -/
def init_to_file_asyncBody (e : InitToFileAsyncEnv) : BodyResult :=
  match parse_loggers_from_env e.rustLog with
  | .error pe => .err pe.display
  | .ok _ =>
    match e.fileAppenderOutcome with
    | .error m => .err m
    | .ok _ =>
      match e.configBuildOutcome with
      | .error m => .err m
      | .ok _ =>
        match e.initConfigOutcome with
        | .ok _ => .ok
        | .error m => .err m

/-- `pub fn init_to_file_async(...)` (src/log.rs lines 218-278). -/
def init_to_file_async (e : InitToFileAsyncEnv) (st : OnceState) : BodyResult × OnceState :=
  call_once st (init_to_file_asyncBody e)

/-- The environment `init_to_server_async` interacts with. -/
structure InitToServerEnv where
  rustLog : Option String
  connectOutcome : Except String Unit
  nodelayOutcome : Except String Unit
  configBuildOutcome : Except String Unit
  initConfigOutcome : Except String Unit
deriving Repr

/-- The closure of `init_to_server_async` (src/log.rs lines 288-349): parse
`RUST_LOG` first (a parse error becomes `Err("ParseLoggerError")`), then
`TcpStream::connect` plus `set_nodelay` (errors become `Err`), then build and
install the config. -/
def init_to_server_asyncBody (e : InitToServerEnv) : BodyResult :=
  match parse_loggers_from_env e.rustLog with
  | .error pe => .err pe.display
  | .ok _ =>
    match e.connectOutcome with
    | .error m => .err m
    | .ok _ =>
      match e.nodelayOutcome with
      | .error m => .err m
      | .ok _ =>
        match e.configBuildOutcome with
        | .error m => .err m
        | .ok _ =>
          match e.initConfigOutcome with
          | .ok _ => .ok
          | .error m => .err m

/-- `pub fn init_to_server_async(...)` (src/log.rs lines 282-352). -/
def init_to_server_async (e : InitToServerEnv) (st : OnceState) : BodyResult × OnceState :=
  call_once st (init_to_server_asyncBody e)

/-- A fresh `call_once` whose closure succeeds uses the `Once` up. -/
theorem call_once_fresh_done_of_ok (b : BodyResult)
    (h : isOk (call_once .fresh b).1 = true) : (call_once .fresh b).2 = .done := by
  cases b with
  | ok => rfl
  | err m => simp [call_once, isOk] at h
  | panicked m => simp [call_once, isOk] at h

/-- A fresh `call_once` whose closure finishes with an error result also uses
the `Once` up. -/
theorem call_once_fresh_done_of_err (b : BodyResult) (m : String)
    (h : (call_once .fresh b).1 = .err m) : (call_once .fresh b).2 = .done := by
  cases b with
  | ok => rfl
  | err m2 => rfl
  | panicked m2 => simp [call_once] at h

/-- The environment of the C9 counterexample: no `log.toml` and a `RUST_LOG`
whose level text `bar` is not a level, every other effect succeeding. -/
def c9Env : InitEnv :=
  { configFileExists := false, initFileOutcome := .ok (), rustLog := some "foo=bar",
    configBuildOutcome := .ok (), initConfigOutcome := .ok () }

/-- C8: after any one initialiser variant has succeeded (the guard state is
`done`), every subsequent call to any of the four variants returns
`Err("Logger already initialised")` and leaves the guard `done`; a successful
fresh call is exactly what puts the guard into `done`, so at most one
initialisation can succeed per process lifetime. -/
theorem c8_second_init_always_already_initialised :
    (∀ e, isOk (init e .fresh).1 = true → (init e .fresh).2 = .done)
    ∧ (∀ e, isOk (init_to_file e .fresh).1 = true → (init_to_file e .fresh).2 = .done)
    ∧ (∀ e, isOk (init_to_file_async e .fresh).1 = true → (init_to_file_async e .fresh).2 = .done)
    ∧ (∀ e, isOk (init_to_server_async e .fresh).1 = true →
        (init_to_server_async e .fresh).2 = .done)
    ∧ (∀ e, init e .done = (.err "Logger already initialised", .done))
    ∧ (∀ e, init_to_file e .done = (.err "Logger already initialised", .done))
    ∧ (∀ e, init_to_file_async e .done = (.err "Logger already initialised", .done))
    ∧ (∀ e, init_to_server_async e .done = (.err "Logger already initialised", .done)) :=
  ⟨fun e h => call_once_fresh_done_of_ok _ h,
   fun e h => call_once_fresh_done_of_ok _ h,
   fun e h => call_once_fresh_done_of_ok _ h,
   fun e h => call_once_fresh_done_of_ok _ h,
   fun _ => rfl, fun _ => rfl, fun _ => rfl, fun _ => rfl⟩

/-- C8 witness: a concrete successful `init` (no config file, `RUST_LOG`
unset, all effects succeeding) leaves the guard `done`, and a subsequent
`init_to_file` on the `done` guard returns the already-initialised error. -/
theorem c8_second_init_always_already_initialised_witness :
    (init { configFileExists := false, initFileOutcome := .ok (), rustLog := none,
            configBuildOutcome := .ok (), initConfigOutcome := .ok () } .fresh).2 = .done
    ∧ init_to_file
        { fileAppenderOutcome := .ok (), rustLog := none,
          configBuildOutcome := .ok (), initConfigOutcome := .ok () } .done
        = (.err "Logger already initialised", .done) :=
  ⟨c8_second_init_always_already_initialised.1
      { configFileExists := false, initFileOutcome := .ok (), rustLog := none,
        configBuildOutcome := .ok (), initConfigOutcome := .ok () } rfl,
   c8_second_init_always_already_initialised.2.2.2.2.2.1
      { fileAppenderOutcome := .ok (), rustLog := none,
        configBuildOutcome := .ok (), initConfigOutcome := .ok () }⟩

/-- C9 counterexample: with no config file and `RUST_LOG="foo=bar"` (whose
level text `bar` is not a level), `init` panics via `.expect` (src/log.rs
line 119) instead of returning the error result the claim promises for every
initializer variant. -/
theorem c9_counterexample :
    (init c9Env .fresh).1 = .panicked "failed to parse RUST_LOG env variable"
    ∧ isErr (init c9Env .fresh).1 = false :=
  ⟨rfl, rfl⟩

/-- C9 amended: setup-time errors propagate synchronously as error results to
the caller for `init_to_file`, `init_to_file_async` and `init_to_server_async`
(their closures never panic), and a fresh call hands the closure's outcome to
the caller unchanged; the plain `init` variant, however, panics exactly when
the config file is absent and the directive string fails to parse — aborting
instead of returning that error — and otherwise propagates errors
synchronously as well. -/
theorem c9_amended_setup_error_propagation :
    (∀ e, isPanic (init_to_fileBody e) = false)
    ∧ (∀ e, isPanic (init_to_file_asyncBody e) = false)
    ∧ (∀ e, isPanic (init_to_server_asyncBody e) = false)
    ∧ (∀ e m, initBody e = .panicked m →
        e.configFileExists = false
        ∧ parse_loggers_from_env e.rustLog = .error {}
        ∧ m = "failed to parse RUST_LOG env variable")
    ∧ (∀ b, (call_once .fresh b).1 = b) := by
  refine ⟨?_, ?_, ?_, ?_, ?_⟩
  · intro e
    rcases e with ⟨f, r, cb, ic⟩
    cases f with
    | error m => rfl
    | ok u =>
      cases hp : parse_loggers_from_env r with
      | error pe => simp [init_to_fileBody, hp, isPanic]
      | ok pr =>
        cases cb with
        | error m => simp [init_to_fileBody, hp, isPanic]
        | ok u2 =>
          cases ic with
          | error m => simp [init_to_fileBody, hp, isPanic]
          | ok u3 => simp [init_to_fileBody, hp, isPanic]
  · intro e
    rcases e with ⟨r, f, cb, ic⟩
    cases hp : parse_loggers_from_env r with
    | error pe => simp [init_to_file_asyncBody, hp, isPanic]
    | ok pr =>
      cases f with
      | error m => simp [init_to_file_asyncBody, hp, isPanic]
      | ok u =>
        cases cb with
        | error m => simp [init_to_file_asyncBody, hp, isPanic]
        | ok u2 =>
          cases ic with
          | error m => simp [init_to_file_asyncBody, hp, isPanic]
          | ok u3 => simp [init_to_file_asyncBody, hp, isPanic]
  · intro e
    rcases e with ⟨r, co, no, cb, ic⟩
    cases hp : parse_loggers_from_env r with
    | error pe => simp [init_to_server_asyncBody, hp, isPanic]
    | ok pr =>
      cases co with
      | error m => simp [init_to_server_asyncBody, hp, isPanic]
      | ok u =>
        cases no with
        | error m => simp [init_to_server_asyncBody, hp, isPanic]
        | ok u1 =>
          cases cb with
          | error m => simp [init_to_server_asyncBody, hp, isPanic]
          | ok u2 =>
            cases ic with
            | error m => simp [init_to_server_asyncBody, hp, isPanic]
            | ok u3 => simp [init_to_server_asyncBody, hp, isPanic]
  · intro e m h
    rcases e with ⟨cf, fo, r, cb, ic⟩
    cases cf with
    | true =>
      cases fo with
      | ok u => cases h
      | error s => cases h
    | false =>
      cases hp : parse_loggers_from_env r with
      | error pe =>
        simp [initBody, hp] at h
        exact ⟨rfl, rfl, h.symm⟩
      | ok pr =>
        cases cb with
        | error s => simp [initBody, hp] at h
        | ok u2 =>
          cases ic with
          | error s => simp [initBody, hp] at h
          | ok u3 => simp [initBody, hp] at h
  · intro b
    cases b with
    | ok => rfl
    | err m => rfl
    | panicked m => rfl

/-- C9 amendment witness: instantiating the `init` panic characterisation at
the concrete environment of the counterexample. -/
theorem c9_amended_setup_error_propagation_witness :
    c9Env.configFileExists = false
    ∧ parse_loggers_from_env c9Env.rustLog = .error {}
    ∧ "failed to parse RUST_LOG env variable" = "failed to parse RUST_LOG env variable" :=
  c9_amended_setup_error_propagation.2.2.2.1 c9Env
    "failed to parse RUST_LOG env variable" rfl

/-- C10: a first initialisation call that fails with a setup error result
(rather than succeeding) nonetheless uses the one-time guard up: the guard is
`done` afterwards, and every subsequent call to any of the four initialiser
variants returns `Err("Logger already initialised")` even though no logger was
ever installed, so initialisation cannot be retried in the same process. -/
theorem c10_failed_first_init_consumes_guard :
    (∀ e m, (init e .fresh).1 = .err m → (init e .fresh).2 = .done)
    ∧ (∀ e m, (init_to_file e .fresh).1 = .err m → (init_to_file e .fresh).2 = .done)
    ∧ (∀ e m, (init_to_file_async e .fresh).1 = .err m → (init_to_file_async e .fresh).2 = .done)
    ∧ (∀ e m, (init_to_server_async e .fresh).1 = .err m →
        (init_to_server_async e .fresh).2 = .done)
    ∧ (∀ e, (init e .done).1 = .err "Logger already initialised")
    ∧ (∀ e, (init_to_file e .done).1 = .err "Logger already initialised")
    ∧ (∀ e, (init_to_file_async e .done).1 = .err "Logger already initialised")
    ∧ (∀ e, (init_to_server_async e .done).1 = .err "Logger already initialised") :=
  ⟨fun e m h => call_once_fresh_done_of_err _ m h,
   fun e m h => call_once_fresh_done_of_err _ m h,
   fun e m h => call_once_fresh_done_of_err _ m h,
   fun e m h => call_once_fresh_done_of_err _ m h,
   fun _ => rfl, fun _ => rfl, fun _ => rfl, fun _ => rfl⟩

/-- C10 witness: an `init_to_file` whose file appender fails returns the
error, consumes the guard, and a later `init` gets the already-initialised
error. -/
theorem c10_failed_first_init_consumes_guard_witness :
    (init_to_file
        { fileAppenderOutcome := .error "io error", rustLog := none,
          configBuildOutcome := .ok (), initConfigOutcome := .ok () } .fresh).2 = .done
    ∧ (init
        { configFileExists := false, initFileOutcome := .ok (), rustLog := none,
          configBuildOutcome := .ok (), initConfigOutcome := .ok () } .done).1
      = .err "Logger already initialised" :=
  ⟨c10_failed_first_init_consumes_guard.2.1
      { fileAppenderOutcome := .error "io error", rustLog := none,
        configBuildOutcome := .ok (), initConfigOutcome := .ok () } "io error" rfl,
   c10_failed_first_init_consumes_guard.2.2.2.2.1
      { configFileExists := false, initFileOutcome := .ok (), rustLog := none,
        configBuildOutcome := .ok (), initConfigOutcome := .ok () }⟩

end Maidsafe
